import Mathlib

/-!
Verification development for the creativeBiom repository.

The repository validates AI-generated Minecraft biome configuration documents.
Three independent validation paths exist in the source:
* `src/lib/minecraft/biomeSchema.ts` — Zod schemas (`MobSpawnSchema`,
  `EffectsSchema`, `BiomeConfigSchema`) plus the helpers
  `validateBiomeConfig` and `parseAIBiomeResponse`;
* `src/lib/datapackGenerator.ts` (geminiClient section) — Zod schemas
  (`BiomeEffectsSchema`, `SpawnerEntrySchema`, `BiomeSchema`) plus the
  value helpers `rgbToInt` / `intToRgb` and `sanitizeBiomeName`;
* `src/lib/minecraft/templates.ts` — hand-written validators
  (`validateTemperature`, `validateFeatures`, `validateEffects`,
  `validateSpawnEntry`).
The API route `src/app/api/generate/route.ts` contributes the in-memory
rate limiter `isRateLimited`.

JSON values are embedded as the inductive `Json` below; JavaScript numbers
are modelled as rationals (every JSON numeric literal relevant to the
validators is an exactly representable decimal, and the validators only
compare numbers and test integrality, operations on which the rational
model agrees with IEEE doubles for such values).
-/

/-- Embedded JSON value, the input type of every validator in the
repository.  Object fields are kept as an association list; `JSON.parse`
output has no duplicate keys, and lookup takes the first binding. -/
inductive Json where
  | null : Json
  | bool (b : Bool) : Json
  | num (q : ℚ) : Json
  | str (s : String) : Json
  | arr (elems : List Json) : Json
  | obj (fields : List (String × Json)) : Json

/-- Field lookup in an association list (first binding wins). -/
def lookupField : List (String × Json) → String → Option Json
  | [], _ => none
  | (k', v) :: rest, k => if k' = k then some v else lookupField rest k

/-- Field access on a JSON value: `some v` when the value is an object
with the field present, `none` otherwise. -/
def getField : Json → String → Option Json
  | .obj fields, k => lookupField fields k
  | _, _ => none

/-- Whether a JSON value is an object (Zod `z.object` and the manual
validators accept only objects at such positions). -/
def isObj : Json → Bool
  | .obj _ => true
  | _ => false

/-- Model of `Number.isInteger` on the rational model of a JavaScript number:
the denominator is 1.  Used for Zod `.int()` and the manual validators. -/
def isIntQ (q : ℚ) : Bool := q.den == 1

/- Value-level checkers mirroring the Zod primitives used in the source. -/

/-- Zod `z.string()`. -/
def vStr : Json → Bool
  | .str _ => true
  | _ => false

/-- Zod `z.boolean()`. -/
def vBool : Json → Bool
  | .bool _ => true
  | _ => false

/-- Zod `z.number()`. -/
def vNum : Json → Bool
  | .num _ => true
  | _ => false

/-- Zod `z.number().min(lo).max(hi)`. -/
def vNumInRange (lo hi : ℚ) : Json → Bool
  | .num q => decide (lo ≤ q) && decide (q ≤ hi)
  | _ => false

/-- Zod `z.number().int()`. -/
def vInt : Json → Bool
  | .num q => isIntQ q
  | _ => false

/-- Zod `z.number().int().min(lo)`. -/
def vIntMin (lo : ℚ) : Json → Bool
  | .num q => isIntQ q && decide (lo ≤ q)
  | _ => false

/-- Zod `z.number().int().min(lo).max(hi)`. -/
def vIntInRange (lo hi : ℚ) : Json → Bool
  | .num q => isIntQ q && decide (lo ≤ q) && decide (q ≤ hi)
  | _ => false

/-- Zod `z.enum([...])`: a string drawn from the listed literals. -/
def vEnum (choices : List String) : Json → Bool
  | .str s => choices.contains s
  | _ => false

/-- Zod `z.array(f)`. -/
def vArrOf (f : Json → Bool) : Json → Bool
  | .arr xs => xs.all f
  | _ => false

/-- Required object field: present and valid. -/
def req (f : Json → Bool) : Option Json → Bool
  | some v => f v
  | none => false

/-- Optional object field (Zod `.optional()`): absent, or present and valid. -/
def opt (f : Json → Bool) : Option Json → Bool
  | some v => f v
  | none => true

/-- Character membership in the hex-digit class `[0-9A-Fa-f]`. -/
def isHexDigit (c : Char) : Bool :=
  (48 ≤ c.toNat && c.toNat ≤ 57) ||
  (65 ≤ c.toNat && c.toNat ≤ 70) ||
  (97 ≤ c.toNat && c.toNat ≤ 102)

/-- Match against the anchored regex of `hexColorSchema` in
`src/lib/minecraft/biomeSchema.ts`: a hash sign followed by exactly six
hex digits. -/
def matchesHexColorRegex (s : String) : Bool :=
  match s.data with
  | '#' :: rest => rest.length == 6 && rest.all isHexDigit
  | _ => false

/-- Model of `hexColorSchema` of biomeSchema.ts: `z.string().regex(#RRGGBB)`. -/
def vHex : Json → Bool
  | .str s => matchesHexColorRegex s
  | _ => false

/-- Model of `MobSpawnSchema` of biomeSchema.ts: type string, maxCount and
minCount integers in 1..32, weight an integer at least 0. -/
def mobSpawnOk (j : Json) : Bool :=
  isObj j &&
  req vStr (getField j "type") &&
  req (vIntInRange 1 32) (getField j "maxCount") &&
  req (vIntInRange 1 32) (getField j "minCount") &&
  req (vIntMin 0) (getField j "weight")

/-- Model of `ParticleSchema` of biomeSchema.ts. -/
def particleOk (j : Json) : Bool :=
  isObj j &&
  req (fun o => isObj o && req vStr (getField o "type")) (getField j "options") &&
  req (vNumInRange 0 1) (getField j "probability")

/-- Model of `MoodSoundSchema` of biomeSchema.ts. -/
def moodSoundOk (j : Json) : Bool :=
  isObj j &&
  req vStr (getField j "sound") &&
  req vInt (getField j "tick_delay") &&
  req vInt (getField j "block_search_extent") &&
  req vNum (getField j "offset")

/-- Model of `MusicSchema` of biomeSchema.ts. -/
def musicOk (j : Json) : Bool :=
  isObj j &&
  req vStr (getField j "sound") &&
  req vInt (getField j "min_delay") &&
  req vInt (getField j "max_delay") &&
  req vBool (getField j "replace_current_music")

/-- Model of `BackgroundMusicSchema` of biomeSchema.ts. -/
def backgroundMusicOk (j : Json) : Bool :=
  isObj j &&
  req (fun d => isObj d &&
    req vInt (getField d "max_delay") &&
    req vInt (getField d "min_delay") &&
    req vStr (getField d "sound")) (getField j "default")

/-- Model of `EffectsSchema` of biomeSchema.ts: every field optional, colors
checked against the hex regex. -/
def effectsOk (j : Json) : Bool :=
  isObj j &&
  opt vHex (getField j "water_color") &&
  opt vHex (getField j "water_fog_color") &&
  opt vHex (getField j "fog_color") &&
  opt vHex (getField j "sky_color") &&
  opt vHex (getField j "foliage_color") &&
  opt vHex (getField j "grass_color") &&
  opt (vEnum [ "none", "dark_forest", "swamp"]) (getField j "grass_color_modifier") &&
  opt vHex (getField j "dry_foliage_color") &&
  opt moodSoundOk (getField j "mood_sound") &&
  opt musicOk (getField j "music") &&
  opt particleOk (getField j "particle")

/-- Model of `AttributesSchema` of biomeSchema.ts (the field itself is optional
at the use site). -/
def attributesOk (j : Json) : Bool :=
  isObj j &&
  opt vHex (getField j "minecraft:visual/sky_color") &&
  opt vHex (getField j "minecraft:visual/water_fog_color") &&
  opt backgroundMusicOk (getField j "minecraft:audio/background_music") &&
  opt vBool (getField j "minecraft:gameplay/snow_golem_melts")

/-- Model of `SpawnersSchema` of biomeSchema.ts: eight required categories, each
an array of `MobSpawnSchema` entries. -/
def spawnersOk (j : Json) : Bool :=
  isObj j &&
  req (vArrOf mobSpawnOk) (getField j "ambient") &&
  req (vArrOf mobSpawnOk) (getField j "axolotls") &&
  req (vArrOf mobSpawnOk) (getField j "creature") &&
  req (vArrOf mobSpawnOk) (getField j "misc") &&
  req (vArrOf mobSpawnOk) (getField j "monster") &&
  req (vArrOf mobSpawnOk) (getField j "underground_water_creature") &&
  req (vArrOf mobSpawnOk) (getField j "water_ambient") &&
  req (vArrOf mobSpawnOk) (getField j "water_creature")

/-- Features field of `BiomeConfigSchema`:
`z.array(z.array(z.string())).length(11)`. -/
def featuresFieldOk (j : Json) : Bool :=
  match j with
  | .arr xs => xs.all (vArrOf vStr) && xs.length == 11
  | _ => false

/-- Model of `BiomeConfigSchema` of biomeSchema.ts. -/
def biomeConfigOk (j : Json) : Bool :=
  isObj j &&
  req (vNumInRange (-2) 2) (getField j "temperature") &&
  req (vNumInRange 0 1) (getField j "downfall") &&
  req vBool (getField j "has_precipitation") &&
  opt attributesOk (getField j "attributes") &&
  req (vArrOf vStr) (getField j "carvers") &&
  req effectsOk (getField j "effects") &&
  req featuresFieldOk (getField j "features") &&
  req isObj (getField j "spawn_costs") &&
  req spawnersOk (getField j "spawners")

/-- Spawn entry accepted by `MobSpawnSchema` although its weight is zero
and its minCount exceeds its maxCount. -/
def badSpawnEntry : Json :=
  .obj [ ("type", .str "minecraft:zombie"), ("maxCount", .num 1),
         ("minCount", .num 2), ("weight", .num 0)]

/-- Complete document accepted by `BiomeConfigSchema` whose creature
category contains `badSpawnEntry`. -/
def badSpawnDoc : Json :=
  .obj [ ("temperature", .num 0), ("downfall", .num 0),
         ("has_precipitation", .bool false),
         ("carvers", .arr []),
         ("effects", .obj []),
         ("features", .arr (List.replicate 11 (.arr []))),
         ("spawn_costs", .obj []),
         ("spawners", .obj [ ("ambient", .arr []), ("axolotls", .arr []),
           ("creature", .arr [badSpawnEntry]), ("misc", .arr []),
           ("monster", .arr []), ("underground_water_creature", .arr []),
           ("water_ambient", .arr []), ("water_creature", .arr [])])]


/- Schemas of the geminiClient section of `src/lib/datapackGenerator.ts`. -/

/-- Model of `SpawnerEntrySchema` of the geminiClient section: four typed fields,
no range constraints at all. -/
def spawnerEntryOk (j : Json) : Bool :=
  isObj j &&
  req vStr (getField j "type") &&
  req vInt (getField j "weight") &&
  req vInt (getField j "minCount") &&
  req vInt (getField j "maxCount")

/-- Model of `BiomeEffectsSchema` of the geminiClient section: the four required
colors are plain integers (packed RGB), not hex strings. -/
def geminiEffectsOk (j : Json) : Bool :=
  isObj j &&
  req vInt (getField j "sky_color") &&
  req vInt (getField j "fog_color") &&
  req vInt (getField j "water_color") &&
  req vInt (getField j "water_fog_color") &&
  opt vInt (getField j "foliage_color") &&
  opt vInt (getField j "grass_color") &&
  opt (vEnum [ "swamp", "dark_forest"]) (getField j "grass_color_modifier") &&
  opt (fun m => isObj m &&
    req vStr (getField m "sound") &&
    req vNum (getField m "tick_delay") &&
    req vNum (getField m "block_search_extent") &&
    req vNum (getField m "offset")) (getField j "mood_sound") &&
  opt vStr (getField j "ambient_sound") &&
  opt (fun m => isObj m &&
    req vStr (getField m "sound") &&
    req vNum (getField m "min_delay") &&
    req vNum (getField m "max_delay") &&
    req vBool (getField m "replace_current_music")) (getField j "music") &&
  opt (fun p => isObj p &&
    req (fun o => isObj o && req vStr (getField o "type")) (getField p "options") &&
    req vNum (getField p "probability")) (getField j "particle")

/-- Model of `BiomeSpawnersSchema` of the geminiClient section: five required
categories, `misc` optional, entries unconstrained beyond their types. -/
def geminiSpawnersOk (j : Json) : Bool :=
  isObj j &&
  req (vArrOf spawnerEntryOk) (getField j "monster") &&
  req (vArrOf spawnerEntryOk) (getField j "creature") &&
  req (vArrOf spawnerEntryOk) (getField j "ambient") &&
  req (vArrOf spawnerEntryOk) (getField j "water_creature") &&
  req (vArrOf spawnerEntryOk) (getField j "water_ambient") &&
  opt (vArrOf spawnerEntryOk) (getField j "misc")

/-- Values allowed in the optional `spawn_costs` record of the
geminiClient `BiomeSchema`. -/
def spawnCostOk (j : Json) : Bool :=
  isObj j &&
  req vNum (getField j "energy_budget") &&
  req vNum (getField j "charge")

/-- All values of a JSON object satisfy a checker (Zod `z.record`). -/
def vRecordOf (f : Json → Bool) : Json → Bool
  | .obj fields => fields.all (fun kv => f kv.2)
  | _ => false

/-- Model of `BiomeSchema` of the geminiClient section of datapackGenerator.ts.
Temperature and downfall are bare `z.number()` with no range, and the
features array carries no length constraint. -/
def geminiBiomeOk (j : Json) : Bool :=
  isObj j &&
  req vBool (getField j "has_precipitation") &&
  req vNum (getField j "temperature") &&
  opt (vEnum [ "frozen"]) (getField j "temperature_modifier") &&
  req vNum (getField j "downfall") &&
  req geminiEffectsOk (getField j "effects") &&
  req vStr (getField j "surface_builder") &&
  opt (fun c => isObj c &&
    opt (vArrOf vStr) (getField c "air") &&
    opt (vArrOf vStr) (getField c "liquid")) (getField j "carvers") &&
  req (vArrOf (vArrOf vStr)) (getField j "features") &&
  opt (vArrOf vStr) (getField j "starts") &&
  req geminiSpawnersOk (getField j "spawners") &&
  opt (vRecordOf spawnCostOk) (getField j "spawn_costs") &&
  opt vBool (getField j "player_spawn_friendly") &&
  opt vNum (getField j "creature_spawn_probability")

/-- Document accepted by the geminiClient `BiomeSchema` although its
temperature is 100 and its downfall is 5, far outside the ranges the
other validation paths require; its features array is empty. -/
def outOfRangeDoc : Json :=
  .obj [ ("has_precipitation", .bool true), ("temperature", .num 100),
         ("downfall", .num 5),
         ("effects", .obj [ ("sky_color", .num 8103167),
           ("fog_color", .num 12638463), ("water_color", .num 4159204),
           ("water_fog_color", .num 329011)]),
         ("surface_builder", .str "minecraft:grass"),
         ("features", .arr []),
         ("spawners", .obj [ ("monster", .arr []), ("creature", .arr []),
           ("ambient", .arr []), ("water_creature", .arr []),
           ("water_ambient", .arr [])])]


/- Hand-written validators of `src/lib/minecraft/templates.ts`.  Each
returns the list of validation errors it pushes; the source wraps the
list in a record together with `valid: errors.length === 0`, and each
error record is collapsed here to its message text.  A JSON array passes
the JavaScript `typeof x === 'object'` guard, so arrays reach the field
checks (where every field lookup misses); only primitives and null take
the early-return branch. -/

/-- Model of `validateTemperature` of templates.ts: numbers outside [-2, 2] and
non-numbers produce an error. -/
def validateTemperature : Json → List String
  | .num q =>
    if q < -2 ∨ 2 < q then [ "Temperature must be between -2.0 and 2.0"] else []
  | _ => [ "Temperature must be a number"]

/-- Element check inside `validateFeatures`: each feature must be a
string containing a namespace separator. -/
def checkFeatureElem : Json → List String
  | .str s =>
    if s.data.contains ':' then [] else [ "Feature should be a namespaced ID"]
  | _ => [ "Feature must be a string"]

/-- Stage check inside `validateFeatures`: each stage must be an array
of namespaced feature strings. -/
def checkStage : Json → List String
  | .arr fs => (fs.map checkFeatureElem).flatten
  | _ => [ "Feature stage must be an array"]

/-- Model of `validateFeatures` of templates.ts: requires an array of exactly 10
stages (the Zod path `BiomeConfigSchema` requires 11 instead). -/
def validateFeatures : Json → List String
  | .arr xs =>
    (if xs.length = 10 then []
     else [ "features array should have exactly 10 stages"]) ++
    (xs.map checkStage).flatten
  | _ => [ "features must be an array"]

/-- Check of one required packed-RGB color field inside
`validateEffects`: present, a number, an integer in 0..16777215. -/
def checkColorField : Option Json → List String
  | none => [ "Required color field is missing"]
  | some (.num q) =>
    if q < 0 ∨ 16777215 < q ∨ ¬isIntQ q = true then
      [ "color must be an integer between 0 and 16777215"]
    else []
  | some _ => [ "color must be a number (packed RGB integer)"]

/-- Model of `validateEffects` of templates.ts: colors are packed integers, not
hex strings (unlike the `hexColorSchema` path of biomeSchema.ts). -/
def validateEffects (j : Json) : List String :=
  match j with
  | .obj _ =>
    checkColorField (getField j "sky_color") ++
    checkColorField (getField j "fog_color") ++
    checkColorField (getField j "water_color") ++
    checkColorField (getField j "water_fog_color")
  | .arr _ =>
    checkColorField (getField j "sky_color") ++
    checkColorField (getField j "fog_color") ++
    checkColorField (getField j "water_color") ++
    checkColorField (getField j "water_fog_color")
  | _ => [ "effects must be an object"]

/-- Model of `KNOWN_MOBS` of templates.ts, in source order (the source stores
them in a `Set`; membership is all that is consumed). -/
def KNOWN_MOBS : List String :=
  [ "minecraft:zombie", "minecraft:skeleton", "minecraft:creeper",
    "minecraft:spider", "minecraft:cave_spider", "minecraft:enderman",
    "minecraft:witch", "minecraft:slime", "minecraft:phantom",
    "minecraft:drowned", "minecraft:husk", "minecraft:stray",
    "minecraft:zombie_villager", "minecraft:vindicator", "minecraft:evoker",
    "minecraft:pillager", "minecraft:ravager", "minecraft:vex",
    "minecraft:blaze", "minecraft:ghast", "minecraft:magma_cube",
    "minecraft:wither_skeleton", "minecraft:piglin", "minecraft:piglin_brute",
    "minecraft:hoglin", "minecraft:zoglin", "minecraft:guardian",
    "minecraft:elder_guardian", "minecraft:shulker", "minecraft:silverfish",
    "minecraft:endermite", "minecraft:pig", "minecraft:cow",
    "minecraft:sheep", "minecraft:chicken", "minecraft:rabbit",
    "minecraft:horse", "minecraft:donkey", "minecraft:mule",
    "minecraft:llama", "minecraft:cat", "minecraft:wolf",
    "minecraft:ocelot", "minecraft:parrot", "minecraft:fox",
    "minecraft:panda", "minecraft:polar_bear", "minecraft:turtle",
    "minecraft:goat", "minecraft:axolotl", "minecraft:frog",
    "minecraft:villager", "minecraft:iron_golem", "minecraft:snow_golem",
    "minecraft:squid", "minecraft:glow_squid", "minecraft:dolphin",
    "minecraft:cod", "minecraft:salmon", "minecraft:tropical_fish",
    "minecraft:pufferfish", "minecraft:bat"]

/-- Missing-required-field check used by `validateSpawnEntry`. -/
def missingField (o : Option Json) (msg : String) : List String :=
  match o with
  | none => [msg]
  | some _ => []

/-- Mob type check of `validateSpawnEntry`: string, namespaced, known. -/
def spawnTypeCheck : Option Json → List String
  | none => []
  | some (.str s) =>
    if ¬s.data.contains ':' = true then [ "Mob type must be namespaced"]
    else if ¬KNOWN_MOBS.contains s = true then
      [ "Mob type not in known mobs list"]
    else []
  | some _ => [ "Mob type must be a string"]

/-- Weight check of `validateSpawnEntry`: an integer between 1 and 1000. -/
def spawnWeightCheck : Option Json → List String
  | none => []
  | some (.num q) =>
    if isIntQ q then
      if q < 1 ∨ 1000 < q then [ "Weight should be between 1 and 1000"]
      else []
    else [ "Weight must be an integer"]
  | some _ => [ "Weight must be an integer"]

/-- Count check of `validateSpawnEntry` for minCount and maxCount: an
integer between 1 and 10. -/
def spawnCountCheck (o : Option Json) (intMsg rangeMsg : String) : List String :=
  match o with
  | none => []
  | some (.num q) =>
    if isIntQ q then
      if q < 1 ∨ 10 < q then [rangeMsg] else []
    else [intMsg]
  | some _ => [intMsg]

/-- Cross check of `validateSpawnEntry`: when both counts are present
and numeric, minCount must not exceed maxCount. -/
def spawnCrossCheck : Option Json → Option Json → List String
  | some (.num mn), some (.num mx) =>
    if mx < mn then [ "minCount must be less than or equal to maxCount"]
    else []
  | _, _ => []

/-- Field checks of `validateSpawnEntry`, in source push order. -/
def spawnEntryChecks (entry : Json) : List String :=
  missingField (getField entry "type") "Required field type is missing" ++
  missingField (getField entry "weight") "Required field weight is missing" ++
  missingField (getField entry "minCount") "Required field minCount is missing" ++
  missingField (getField entry "maxCount") "Required field maxCount is missing" ++
  spawnTypeCheck (getField entry "type") ++
  spawnWeightCheck (getField entry "weight") ++
  spawnCountCheck (getField entry "minCount")
    "minCount must be an integer" "minCount should be between 1 and 10" ++
  spawnCountCheck (getField entry "maxCount")
    "maxCount must be an integer" "maxCount should be between 1 and 10" ++
  spawnCrossCheck (getField entry "minCount") (getField entry "maxCount")

/-- Model of `validateSpawnEntry` of templates.ts (the `path` argument of the
source only decorates the error field names, which this model collapses
into the messages). -/
def validateSpawnEntry (entry : Json) : List String :=
  match entry with
  | .obj _ => spawnEntryChecks entry
  | .arr _ => spawnEntryChecks entry
  | _ => [ "Spawn entry must be an object"]

/- Helpers `validateBiomeConfig` and `parseAIBiomeResponse` of
biomeSchema.ts, built on `BiomeConfigSchema.safeParse`.  Zod reports a
failure through a non-empty issue list; the issue list is modelled at
top-level-field granularity by `biomeConfigIssues`, whose emptiness
coincides with `biomeConfigOk` (proved below). -/

/-- Issue contributed by one schema check: empty when the check passes. -/
def issueIf (b : Bool) (msg : String) : List String :=
  if b then [] else [msg]

/-- Zod issue list of `BiomeConfigSchema.safeParse`, at the granularity
of top-level fields; built from the same field checks as
`biomeConfigOk`. -/
def biomeConfigIssues (j : Json) : List String :=
  match j with
  | .obj _ =>
    issueIf (req (vNumInRange (-2) 2) (getField j "temperature"))
      "temperature: invalid" ++
    issueIf (req (vNumInRange 0 1) (getField j "downfall"))
      "downfall: invalid" ++
    issueIf (req vBool (getField j "has_precipitation"))
      "has_precipitation: invalid" ++
    issueIf (opt attributesOk (getField j "attributes"))
      "attributes: invalid" ++
    issueIf (req (vArrOf vStr) (getField j "carvers"))
      "carvers: invalid" ++
    issueIf (req effectsOk (getField j "effects"))
      "effects: invalid" ++
    issueIf (req featuresFieldOk (getField j "features"))
      "features: Must have exactly 11 feature generation steps" ++
    issueIf (req isObj (getField j "spawn_costs"))
      "spawn_costs: invalid" ++
    issueIf (req spawnersOk (getField j "spawners"))
      "spawners: invalid"
  | _ => [ "Expected object"]

/-- Result record of `validateBiomeConfig` in biomeSchema.ts. -/
structure ValidationOutcome where
  success : Bool
  data : Option Json
  errors : Option (List String)

/-- Model of `validateBiomeConfig` of biomeSchema.ts: wraps `safeParse`, returning
the typed data on success and the mapped issue list on failure. -/
def validateBiomeConfig (j : Json) : ValidationOutcome :=
  match biomeConfigIssues j with
  | [] => { success := true, data := some j, errors := none }
  | es => { success := false, data := none, errors := some es }

/-- Result record of `parseAIBiomeResponse` in biomeSchema.ts. -/
structure ParseOutcome where
  success : Bool
  biome : Option Json
  error : Option String

/-- Model of `parseAIBiomeResponse` of biomeSchema.ts.  `JSON.parse` is an
external builtin; its outcome is modelled as `Except String Json`, the
error carrying the thrown message.  The rest mirrors the source: on a
parse the document is validated, and on failure the error string is the
joined error list with a fallback when that string is empty. -/
def parseAIBiomeResponse (parsed : Except String Json) : ParseOutcome :=
  match parsed with
  | .error m => { success := false, biome := none, error := some m }
  | .ok j =>
    let validation := validateBiomeConfig j
    if validation.success && validation.data.isSome then
      { success := true, biome := validation.data, error := none }
    else
      let joined :=
        match validation.errors with
        | some es => String.intercalate "; " es
        | none => ""
      { success := false, biome := none,
        error := some (if joined = "" then "Invalid biome configuration" else joined) }

/- Value helpers `rgbToInt` / `intToRgb` of datapackGenerator.ts.  The
JavaScript bitwise operators coerce through ToInt32; on the byte-sized
arguments and 24-bit packed colors these functions are used with, that
coercion is the identity, so the functions are embedded on naturals with
the corresponding Nat bitwise operators. -/

/-- Model of `rgbToInt` of datapackGenerator.ts: pack three byte components. -/
def rgbToInt (r g b : Nat) : Nat :=
  (r <<< 16) ||| (g <<< 8) ||| b

/-- Model of `intToRgb` of datapackGenerator.ts: unpack a color into components. -/
def intToRgb (color : Nat) : Nat × Nat × Nat :=
  ((color >>> 16) &&& 0xFF, (color >>> 8) &&& 0xFF, color &&& 0xFF)

/- `sanitizeBiomeName` of datapackGenerator.ts (the identical four-step
replacement chain appears twice in the file and inline in
`createFolderStructure` and `generateCompleteDatapack`).  Strings are
modelled as their character lists.  `toLowerCase` is modelled by the
per-character ASCII case map: the Unicode special cases only differ on
characters that the following character-class replacement sends to an
underscore either way. -/

/-- ASCII lower-casing of one character, the model of
`String.prototype.toLowerCase`. -/
def jsToLower (c : Char) : Char :=
  if 65 ≤ c.toNat ∧ c.toNat ≤ 90 then Char.ofNat (c.toNat + 32) else c

/-- Membership in the character class `[a-z0-9_]` of the sanitizer
regexes. -/
def isNameChar (c : Char) : Bool :=
  (97 ≤ c.toNat && c.toNat ≤ 122) ||
  (48 ≤ c.toNat && c.toNat ≤ 57) ||
  c.toNat == 95

/-- One step of `replace(/[^a-z0-9_]/g, '_')`: characters outside the
class become an underscore. -/
def sanitizeChar (c : Char) : Char :=
  if isNameChar c then c else '_'

/-- Model of `replace(/_{2,}/g, '_')`: every maximal run of at least two
underscores collapses to a single underscore. -/
def collapseUnderscores : List Char → List Char
  | [] => []
  | [c] => [c]
  | c :: d :: rest =>
    if c = '_' ∧ d = '_' then collapseUnderscores (d :: rest)
    else c :: collapseUnderscores (d :: rest)

/-- Leading half of `replace(/^_|_$/g, '')`: the anchor `^_` can match
only at position zero, so at most one leading underscore is removed. -/
def dropLeadingUnderscore : List Char → List Char
  | [] => []
  | c :: rest => if c = '_' then rest else c :: rest

/-- Trailing half of `replace(/^_|_$/g, '')`: the anchor `_$` can match
only at the last position, so at most one trailing underscore is
removed (on the single character "_" the leading half already consumed
it, which the composition below reproduces). -/
def dropTrailingUnderscore : List Char → List Char
  | [] => []
  | [c] => if c = '_' then [] else [c]
  | c :: rest => c :: dropTrailingUnderscore rest

/-- Model of `sanitizeBiomeName` of datapackGenerator.ts: lower-case, replace
characters outside `[a-z0-9_]` by underscores, collapse underscore runs,
trim one leading and one trailing underscore. -/
def sanitizeBiomeName (name : List Char) : List Char :=
  dropTrailingUnderscore (dropLeadingUnderscore
    (collapseUnderscores (List.map sanitizeChar (List.map jsToLower name))))

/- Rate limiter of `src/app/api/generate/route.ts`.  The module map
keyed by client identifier is modelled per identifier: `isRateLimited`
reads and replaces that identifier's entry, so a single `Option` entry
threaded through the calls for one identifier captures the map. -/

/-- Model of `RATE_LIMIT_MAX` of route.ts. -/
def RATE_LIMIT_MAX : Nat := 10

/-- Model of `RATE_LIMIT_WINDOW_MS` of route.ts. -/
def RATE_LIMIT_WINDOW_MS : Nat := 60 * 1000

/-- Stored rate-limit entry of route.ts. -/
structure RateLimitEntry where
  count : Nat
  resetTime : Nat

/-- Model of `isRateLimited` of route.ts, as a function of the current time and
the identifier's stored entry, returning the verdict and the new entry. -/
def isRateLimited (now : Nat) (entry : Option RateLimitEntry) :
    Bool × Option RateLimitEntry :=
  match entry with
  | none => (false, some { count := 1, resetTime := now + RATE_LIMIT_WINDOW_MS })
  | some e =>
    if e.resetTime < now then
      (false, some { count := 1, resetTime := now + RATE_LIMIT_WINDOW_MS })
    else if RATE_LIMIT_MAX ≤ e.count then
      (true, some e)
    else
      (false, some { count := e.count + 1, resetTime := e.resetTime })

/-- Fold of `isRateLimited` over a list of call times for one
identifier, collecting the verdicts and the final stored entry. -/
def runCalls (entry : Option RateLimitEntry) :
    List Nat → List Bool × Option RateLimitEntry
  | [] => ([], entry)
  | t :: ts =>
    let r := isRateLimited t entry
    let rest := runCalls r.2 ts
    (r.1 :: rest.1, rest.2)

/-- Stored count of an optional entry (0 when absent). -/
def countOf : Option RateLimitEntry → Nat
  | none => 0
  | some e => e.count

/-- Expected verdict sequence for calls inside one window starting from
stored count `c`: the i-th call is limited exactly when `c + i` has
reached `RATE_LIMIT_MAX`. -/
def windowReplies (c : Nat) : Nat → List Bool
  | 0 => []
  | n + 1 => decide (RATE_LIMIT_MAX ≤ c) :: windowReplies (c + 1) n

/- Shape predicates for sanitized names, stating the guarantees of
`sanitizeBiomeName`: only `[a-z0-9_]` characters, no two consecutive
underscores, no leading underscore, no trailing underscore. -/

/-- No two consecutive underscores occur in the character list. -/
def noDoubleUnderscore : List Char → Bool
  | [] => true
  | [_] => true
  | c :: d :: rest => !(c == '_' && d == '_') && noDoubleUnderscore (d :: rest)

/-- The first character, when present, is not an underscore. -/
def headNotUnderscore : List Char → Bool
  | [] => true
  | c :: _ => !(c == '_')

/-- The last character, when present, is not an underscore. -/
def lastNotUnderscore : List Char → Bool
  | [] => true
  | [c] => !(c == '_')
  | _ :: rest => lastNotUnderscore rest

/-- Spawn entry passing `validateSpawnEntry` with no errors. -/
def goodSpawnEntry : Json :=
  .obj [ ("type", .str "minecraft:zombie"), ("weight", .num 10),
         ("minCount", .num 1), ("maxCount", .num 4)]

/-- Effects object in the hex-string color format of biomeSchema.ts. -/
def hexEffects : Json :=
  .obj [ ("sky_color", .str "#3f76e4"), ("fog_color", .str "#c0d8ff"),
         ("water_color", .str "#3f76e4"), ("water_fog_color", .str "#050533")]

/-- Effects object in the packed-integer color format of the
geminiClient schema and of `validateEffects`. -/
def intEffects : Json :=
  .obj [ ("sky_color", .num 8103167), ("fog_color", .num 12638463),
         ("water_color", .num 4159204), ("water_fog_color", .num 329011)]

/- Theorems. -/

/-- Arithmetic form of `rgbToInt` on byte-sized components: the three
shifted fields occupy disjoint bit ranges, so the bitwise ors add. -/
theorem rgbToInt_eq_arith (r g b : Nat) (hg : g ≤ 255) (hb : b ≤ 255) :
    rgbToInt r g b = r * 65536 + g * 256 + b := by
  unfold rgbToInt
  rw [Nat.shiftLeft_eq, Nat.shiftLeft_eq]
  have h1 : g * 2 ^ 8 < 2 ^ 16 := by omega
  have h2 : b < 2 ^ 8 := by omega
  rw [Nat.mul_comm r (2 ^ 16), ← Nat.mul_add_lt_is_or h1 r]
  have h3 : 2 ^ 16 * r + g * 2 ^ 8 = 2 ^ 8 * (2 ^ 8 * r + g) := by ring
  rw [h3, ← Nat.mul_add_lt_is_or h2 (2 ^ 8 * r + g)]
  ring

/-- C8: color packing and unpacking are mutually inverse on byte
components: for all naturals r, g, b at most 255,
`intToRgb (rgbToInt r g b)` returns exactly (r, g, b). -/
theorem intToRgb_rgbToInt (r g b : Nat)
    (hr : r ≤ 255) (hg : g ≤ 255) (hb : b ≤ 255) :
    intToRgb (rgbToInt r g b) = (r, g, b) := by
  rw [rgbToInt_eq_arith r g b hg hb]
  unfold intToRgb
  rw [Nat.shiftRight_eq_div_pow, Nat.shiftRight_eq_div_pow]
  have h255 : (255 : Nat) = 2 ^ 8 - 1 := rfl
  simp only [h255, Nat.and_pow_two_sub_one_eq_mod, Prod.mk.injEq]
  refine ⟨?_, ?_, ?_⟩ <;> omega

/-- Witness for C8 at a concrete byte triple. -/
theorem intToRgb_rgbToInt_witness : intToRgb (rgbToInt 18 52 86) = (18, 52, 86) :=
  intToRgb_rgbToInt 18 52 86 (by decide) (by decide) (by decide)

/-- C5: a call for an identifier with no stored entry, or whose stored
resetTime is strictly in the past, returns false and replaces the entry
with count 1 and resetTime now + 60000; prior exhaustion of the previous
window is discarded. -/
theorem isRateLimited_opportunistic_reset (now : Nat) (s : Option RateLimitEntry)
    (h : s = none ∨ ∃ e, s = some e ∧ e.resetTime < now) :
    isRateLimited now s =
      (false, some { count := 1, resetTime := now + RATE_LIMIT_WINDOW_MS }) := by
  rcases h with h | ⟨e, rfl, he⟩
  · subst h; rfl
  · simp [isRateLimited, he]

/-- Witness for C5: an exhausted entry (count 10) with an expired window
is reset and the call is not limited. -/
theorem isRateLimited_opportunistic_reset_witness :
    isRateLimited 5 (some { count := 10, resetTime := 3 }) =
      (false, some { count := 1, resetTime := 5 + RATE_LIMIT_WINDOW_MS }) :=
  isRateLimited_opportunistic_reset 5 (some { count := 10, resetTime := 3 })
    (Or.inr ⟨{ count := 10, resetTime := 3 }, rfl, by decide⟩)

/-- One call never pushes the stored count past `RATE_LIMIT_MAX`. -/
theorem countOf_isRateLimited_le (now : Nat) (s : Option RateLimitEntry)
    (h : countOf s ≤ RATE_LIMIT_MAX) :
    countOf (isRateLimited now s).2 ≤ RATE_LIMIT_MAX := by
  rcases s with _ | e
  · simp [isRateLimited, countOf, RATE_LIMIT_MAX]
  · simp only [isRateLimited]
    split
    · simp [countOf, RATE_LIMIT_MAX]
    · split
      · simpa [countOf] using h
      · simp only [countOf] at h ⊢
        omega

/-- The stored count stays at most `RATE_LIMIT_MAX` along any call
sequence. -/
theorem countOf_runCalls_le (ts : List Nat) (s : Option RateLimitEntry)
    (h : countOf s ≤ RATE_LIMIT_MAX) :
    countOf (runCalls s ts).2 ≤ RATE_LIMIT_MAX := by
  induction ts generalizing s with
  | nil => simpa [runCalls] using h
  | cons t ts ih =>
    simp only [runCalls]
    exact ih _ (countOf_isRateLimited_le t s h)

/-- Once the count has reached the maximum, every expected in-window
verdict is limited. -/
theorem windowReplies_saturated (n c : Nat) (h : RATE_LIMIT_MAX ≤ c) :
    windowReplies c n = List.replicate n true := by
  induction n generalizing c with
  | zero => rfl
  | succ n ih =>
    rw [windowReplies, List.replicate_succ, ih (c + 1) (by omega)]
    simp [h]

/-- In-window calls starting from stored count `c` produce exactly the
verdicts `windowReplies c`, and leave the count at
`min (c + calls) RATE_LIMIT_MAX` with the reset time unchanged. -/
theorem runCalls_in_window (ts : List Nat) (c R : Nat)
    (h1 : 1 ≤ c) (h2 : c ≤ RATE_LIMIT_MAX) (hts : ∀ t ∈ ts, t ≤ R) :
    (runCalls (some { count := c, resetTime := R }) ts).1 =
      windowReplies c ts.length ∧
    (runCalls (some { count := c, resetTime := R }) ts).2 =
      some { count := min (c + ts.length) RATE_LIMIT_MAX, resetTime := R } := by
  induction ts generalizing c with
  | nil =>
    refine ⟨rfl, ?_⟩
    simp only [runCalls, List.length_nil, Nat.add_zero]
    rw [Nat.min_eq_left h2]
  | cons t ts ih =>
    have ht : t ≤ R := hts t (List.mem_cons_self t ts)
    have hts' : ∀ u ∈ ts, u ≤ R := fun u hu => hts u (List.mem_cons_of_mem t hu)
    have hnotpast : ¬(R < t) := by omega
    by_cases hc : RATE_LIMIT_MAX ≤ c
    · have hc10 : c = RATE_LIMIT_MAX := by omega
      subst hc10
      have step : isRateLimited t (some { count := RATE_LIMIT_MAX, resetTime := R }) =
          (true, some { count := RATE_LIMIT_MAX, resetTime := R }) := by
        simp [isRateLimited, hnotpast]
      obtain ⟨ihr, ihs⟩ := ih RATE_LIMIT_MAX h1 (le_refl _) hts'
      constructor
      · simp only [runCalls, step, ihr, List.length_cons, windowReplies]
        rw [windowReplies_saturated ts.length RATE_LIMIT_MAX (le_refl _),
          windowReplies_saturated ts.length (RATE_LIMIT_MAX + 1) (by omega)]
        simp
      · simp only [runCalls, step, ihs, List.length_cons]
        congr 2
        omega
    · have step : isRateLimited t (some { count := c, resetTime := R }) =
          (false, some { count := c + 1, resetTime := R }) := by
        simp [isRateLimited, hnotpast, hc]
      obtain ⟨ihr, ihs⟩ := ih (c + 1) (by omega) (by omega) hts'
      constructor
      · simp only [runCalls, step, ihr, List.length_cons, windowReplies]
        simp [hc]
      · simp only [runCalls, step, ihs, List.length_cons]
        congr 2
        omega

/-- Count of unlimited verdicts in the expected in-window sequence. -/
theorem windowReplies_countP (n c : Nat) (h2 : c ≤ RATE_LIMIT_MAX) :
    (windowReplies c n).countP (fun b => b == false) + c ≤ RATE_LIMIT_MAX := by
  induction n generalizing c with
  | zero =>
    simp only [windowReplies, List.countP_nil]
    omega
  | succ n ih =>
    by_cases hc : RATE_LIMIT_MAX ≤ c
    · have hsat : windowReplies c (n + 1) = List.replicate (n + 1) true :=
        windowReplies_saturated (n + 1) c hc
      rw [hsat]
      have hz : (List.replicate (n + 1) true).countP (fun b => b == false) = 0 := by
        rw [List.countP_eq_zero]
        intro a ha
        rw [List.mem_replicate] at ha
        simp [ha.2]
      omega
    · have hrec := ih (c + 1) (by omega)
      have hd : decide (RATE_LIMIT_MAX ≤ c) = false := by simpa using hc
      simp only [windowReplies, List.countP_cons, hd]
      simp only [show ((false == false) = true) from rfl, if_true]
      omega

/-- Every expected in-window verdict whose index has exhausted the
budget is limited. -/
theorem windowReplies_getD (n c i : Nat) (hi : i < n)
    (h : RATE_LIMIT_MAX ≤ c + i) :
    (windowReplies c n).getD i false = true := by
  induction n generalizing c i with
  | zero => omega
  | succ n ih =>
    cases i with
    | zero =>
      simp only [windowReplies, List.getD_cons_zero]
      simpa using h
    | succ i =>
      simp only [windowReplies, List.getD_cons_succ]
      exact ih (c + 1) i (by omega) (by omega)

/-- C4: within one fixed window (all call times at most the stored
resetTime), starting from a freshly opened window entry with count c,
at most RATE_LIMIT_MAX − c further calls return false and every call
whose index has exhausted that budget returns true; moreover the stored
count never exceeds RATE_LIMIT_MAX = 10 along any call sequence.  The
window-opening call itself stores count 1 and returns false (the reset
branch of the code), so with c = 1 the opening call
plus at most 9 further unlimited calls give at most 10 calls returning
false per identifier per window. -/
theorem isRateLimited_window_bound :
    (∀ (s : Option RateLimitEntry) (ts : List Nat),
        countOf s ≤ RATE_LIMIT_MAX →
        countOf (runCalls s ts).2 ≤ RATE_LIMIT_MAX) ∧
    (∀ (c R : Nat) (ts : List Nat), 1 ≤ c → c ≤ RATE_LIMIT_MAX →
        (∀ t ∈ ts, t ≤ R) →
        (runCalls (some { count := c, resetTime := R }) ts).1.countP
            (fun b => b == false) + c ≤ RATE_LIMIT_MAX ∧
        ∀ i, i < ts.length → RATE_LIMIT_MAX ≤ c + i →
          (runCalls (some { count := c, resetTime := R }) ts).1.getD i false
            = true) := by
  constructor
  · intro s ts h
    exact countOf_runCalls_le ts s h
  · intro c R ts h1 h2 hts
    obtain ⟨hr, _⟩ := runCalls_in_window ts c R h1 h2 hts
    rw [hr]
    exact ⟨windowReplies_countP ts.length c h2,
      fun i hi hbudget => windowReplies_getD ts.length c i hi hbudget⟩

/-- Witness for C4: twelve in-window calls after a window opened with
count 1 include at most nine further unlimited calls, and the eleventh
and twelfth calls are limited. -/
theorem isRateLimited_window_bound_witness :
    (runCalls (some { count := 1, resetTime := 60000 })
        [0, 1, 2, 3, 4, 5, 6, 7, 8, 9, 10, 11]).1.countP
      (fun b => b == false) + 1 ≤ RATE_LIMIT_MAX ∧
    (runCalls (some { count := 1, resetTime := 60000 })
        [0, 1, 2, 3, 4, 5, 6, 7, 8, 9, 10, 11]).1.getD 11 false = true := by
  have h := isRateLimited_window_bound.2 1 60000
    [0, 1, 2, 3, 4, 5, 6, 7, 8, 9, 10, 11] (by decide) (by decide)
    (by intro t ht; fin_cases ht <;> decide)
  exact ⟨h.1, h.2 11 (by decide) (by decide)⟩

/-- Replacing out-of-class characters leaves only class characters. -/
theorem all_isNameChar_map_sanitizeChar (l : List Char) :
    (l.map sanitizeChar).all isNameChar = true := by
  induction l with
  | nil => rfl
  | cons c rest ih =>
    simp only [List.map_cons, List.all_cons, Bool.and_eq_true]
    refine ⟨?_, ih⟩
    unfold sanitizeChar
    by_cases h : isNameChar c = true
    · simp [h]
    · rw [if_neg (by simp [h])]
      rfl

/-- Collapsing underscore runs keeps the head character. -/
theorem collapseUnderscores_head (rest : List Char) :
    ∀ c, ∃ t, collapseUnderscores (c :: rest) = c :: t := by
  induction rest with
  | nil => intro c; exact ⟨[], rfl⟩
  | cons d r ih =>
    intro c
    by_cases h : c = '_' ∧ d = '_'
    · obtain ⟨t, ht⟩ := ih d
      refine ⟨t, ?_⟩
      rw [collapseUnderscores, if_pos h, ht, h.1, h.2]
    · exact ⟨collapseUnderscores (d :: r), by rw [collapseUnderscores, if_neg h]⟩

/-- Collapsing underscore runs keeps every character in the class. -/
theorem all_collapseUnderscores (l : List Char) (h : l.all isNameChar = true) :
    (collapseUnderscores l).all isNameChar = true := by
  induction l with
  | nil => rfl
  | cons c rest ih =>
    cases rest with
    | nil => simpa [collapseUnderscores] using h
    | cons d r =>
      simp only [List.all_cons, Bool.and_eq_true] at h
      by_cases hc : c = '_' ∧ d = '_'
      · rw [collapseUnderscores, if_pos hc]
        exact ih (by simp [List.all_cons, h.2.1, h.2.2])
      · rw [collapseUnderscores, if_neg hc]
        simp only [List.all_cons, Bool.and_eq_true]
        exact ⟨h.1, ih (by simp [List.all_cons, h.2.1, h.2.2])⟩

/-- Collapsing underscore runs leaves no two consecutive underscores. -/
theorem noDouble_collapseUnderscores (l : List Char) :
    noDoubleUnderscore (collapseUnderscores l) = true := by
  induction l with
  | nil => rfl
  | cons c rest ih =>
    cases rest with
    | nil => rfl
    | cons d r =>
      by_cases hc : c = '_' ∧ d = '_'
      · rw [collapseUnderscores, if_pos hc]
        exact ih
      · rw [collapseUnderscores, if_neg hc]
        obtain ⟨t, ht⟩ := collapseUnderscores_head r d
        rw [ht]
        rw [ht] at ih
        simp only [noDoubleUnderscore, Bool.and_eq_true]
        refine ⟨?_, ih⟩
        simp only [Bool.not_eq_true']
        rw [Bool.and_eq_false_iff]
        by_cases h1 : c = '_'
        · right
          have hd : ¬d = '_' := fun h2 => hc ⟨h1, h2⟩
          simp [hd]
        · left
          simp [h1]

/-- Consecutive-underscore freedom passes to the tail. -/
theorem noDouble_tail (c : Char) (rest : List Char)
    (h : noDoubleUnderscore (c :: rest) = true) :
    noDoubleUnderscore rest = true := by
  cases rest with
  | nil => rfl
  | cons d r =>
    simp only [noDoubleUnderscore, Bool.and_eq_true] at h
    exact h.2

/-- Removing a leading underscore keeps every character in the class. -/
theorem all_dropLeadingUnderscore (l : List Char)
    (h : l.all isNameChar = true) :
    (dropLeadingUnderscore l).all isNameChar = true := by
  cases l with
  | nil => rfl
  | cons c rest =>
    simp only [List.all_cons, Bool.and_eq_true] at h
    by_cases hc : c = '_'
    · rw [dropLeadingUnderscore, if_pos hc]
      exact h.2
    · rw [dropLeadingUnderscore, if_neg hc]
      simp [List.all_cons, h.1, h.2]

/-- Removing a leading underscore keeps consecutive-underscore freedom. -/
theorem noDouble_dropLeadingUnderscore (l : List Char)
    (h : noDoubleUnderscore l = true) :
    noDoubleUnderscore (dropLeadingUnderscore l) = true := by
  cases l with
  | nil => rfl
  | cons c rest =>
    by_cases hc : c = '_'
    · rw [dropLeadingUnderscore, if_pos hc]
      exact noDouble_tail c rest h
    · rw [dropLeadingUnderscore, if_neg hc]
      exact h

/-- After removing a leading underscore from a consecutive-underscore
free list, the head is not an underscore. -/
theorem headNot_dropLeadingUnderscore (l : List Char)
    (h : noDoubleUnderscore l = true) :
    headNotUnderscore (dropLeadingUnderscore l) = true := by
  cases l with
  | nil => rfl
  | cons c rest =>
    by_cases hc : c = '_'
    · rw [dropLeadingUnderscore, if_pos hc]
      cases rest with
      | nil => rfl
      | cons d r =>
        subst hc
        simp only [noDoubleUnderscore, Bool.and_eq_true, Bool.not_eq_true',
          Bool.and_eq_false_iff] at h
        rcases h.1 with h1 | h1
        · simp at h1
        · simp [headNotUnderscore, h1]
    · rw [dropLeadingUnderscore, if_neg hc]
      simp [headNotUnderscore, hc]

/-- Removing one trailing underscore keeps the head character or empties
the list. -/
theorem dropTrailingUnderscore_shape (c : Char) (rest : List Char) :
    dropTrailingUnderscore (c :: rest) = [] ∨
    ∃ t, dropTrailingUnderscore (c :: rest) = c :: t := by
  cases rest with
  | nil =>
    by_cases hc : c = '_'
    · left
      rw [dropTrailingUnderscore, if_pos hc]
    · right
      exact ⟨[], by rw [dropTrailingUnderscore, if_neg hc]⟩
  | cons d r => exact Or.inr ⟨dropTrailingUnderscore (d :: r), rfl⟩

/-- Removing one trailing underscore empties the list only from the
singleton underscore. -/
theorem dropTrailingUnderscore_nil (c : Char) (rest : List Char)
    (h : dropTrailingUnderscore (c :: rest) = []) :
    rest = [] ∧ c = '_' := by
  cases rest with
  | nil =>
    by_cases hc : c = '_'
    · exact ⟨rfl, hc⟩
    · rw [dropTrailingUnderscore, if_neg hc] at h
      cases h
  | cons d r => cases h

/-- Removing one trailing underscore keeps every character in the class. -/
theorem all_dropTrailingUnderscore (l : List Char)
    (h : l.all isNameChar = true) :
    (dropTrailingUnderscore l).all isNameChar = true := by
  induction l with
  | nil => rfl
  | cons c rest ih =>
    cases rest with
    | nil =>
      by_cases hc : c = '_'
      · rw [dropTrailingUnderscore, if_pos hc]
        rfl
      · rw [dropTrailingUnderscore, if_neg hc]
        exact h
    | cons d r =>
      simp only [List.all_cons, Bool.and_eq_true] at h
      show ((c :: dropTrailingUnderscore (d :: r)).all isNameChar) = true
      simp only [List.all_cons, Bool.and_eq_true]
      exact ⟨h.1, ih (by simp [List.all_cons, h.2.1, h.2.2])⟩

/-- Removing one trailing underscore keeps consecutive-underscore
freedom. -/
theorem noDouble_dropTrailingUnderscore (l : List Char)
    (h : noDoubleUnderscore l = true) :
    noDoubleUnderscore (dropTrailingUnderscore l) = true := by
  induction l with
  | nil => rfl
  | cons c rest ih =>
    cases rest with
    | nil =>
      by_cases hc : c = '_'
      · rw [dropTrailingUnderscore, if_pos hc]
        rfl
      · rw [dropTrailingUnderscore, if_neg hc]
        rfl
    | cons d r =>
      have hrec := ih (noDouble_tail c (d :: r) h)
      show noDoubleUnderscore (c :: dropTrailingUnderscore (d :: r)) = true
      rcases dropTrailingUnderscore_shape d r with hnil | ⟨t, ht⟩
      · rw [hnil]
        rfl
      · rw [ht]
        rw [ht] at hrec
        simp only [noDoubleUnderscore, Bool.and_eq_true] at h ⊢
        exact ⟨h.1, hrec⟩

/-- Removing one trailing underscore keeps the head free of
underscores. -/
theorem headNot_dropTrailingUnderscore (l : List Char)
    (h : headNotUnderscore l = true) :
    headNotUnderscore (dropTrailingUnderscore l) = true := by
  cases l with
  | nil => rfl
  | cons c rest =>
    rcases dropTrailingUnderscore_shape c rest with hnil | ⟨t, ht⟩
    · rw [hnil]
      rfl
    · rw [ht]
      simpa [headNotUnderscore] using h

/-- After removing one trailing underscore from a consecutive-underscore
free list, the last character is not an underscore. -/
theorem lastNot_dropTrailingUnderscore (l : List Char)
    (h : noDoubleUnderscore l = true) :
    lastNotUnderscore (dropTrailingUnderscore l) = true := by
  induction l with
  | nil => rfl
  | cons c rest ih =>
    cases rest with
    | nil =>
      by_cases hc : c = '_'
      · rw [dropTrailingUnderscore, if_pos hc]
        rfl
      · rw [dropTrailingUnderscore, if_neg hc]
        simp [lastNotUnderscore, hc]
    | cons d r =>
      have hrec := ih (noDouble_tail c (d :: r) h)
      show lastNotUnderscore (c :: dropTrailingUnderscore (d :: r)) = true
      cases hdt : dropTrailingUnderscore (d :: r) with
      | nil =>
        obtain ⟨hr, hd⟩ := dropTrailingUnderscore_nil d r hdt
        subst hr hd
        simp only [noDoubleUnderscore, Bool.and_eq_true, Bool.not_eq_true',
          Bool.and_eq_false_iff] at h
        rcases h.1 with h1 | h1
        · simp [lastNotUnderscore, h1]
        · simp at h1
      | cons x t =>
        rw [hdt] at hrec
        exact hrec

/-- ASCII lower-casing fixes every character of the class `[a-z0-9_]`. -/
theorem jsToLower_fixed (c : Char) (h : isNameChar c = true) :
    jsToLower c = c := by
  simp only [isNameChar, Bool.or_eq_true, Bool.and_eq_true,
    decide_eq_true_eq, beq_iff_eq] at h
  rw [jsToLower, if_neg (by omega)]

/-- Class characters survive the out-of-class replacement unchanged. -/
theorem sanitizeChar_fixed (c : Char) (h : isNameChar c = true) :
    sanitizeChar c = c := by
  rw [sanitizeChar, if_pos h]

/-- A list of class characters is fixed by the first two sanitizer
steps. -/
theorem map_lower_sanitize_fixed (l : List Char) (h : l.all isNameChar = true) :
    (l.map jsToLower).map sanitizeChar = l := by
  induction l with
  | nil => rfl
  | cons c rest ih =>
    simp only [List.all_cons, Bool.and_eq_true] at h
    simp only [List.map_cons]
    rw [jsToLower_fixed c h.1, sanitizeChar_fixed c h.1, ih h.2]

/-- Collapsing fixes a list without consecutive underscores. -/
theorem collapseUnderscores_fixed (l : List Char)
    (h : noDoubleUnderscore l = true) :
    collapseUnderscores l = l := by
  induction l with
  | nil => rfl
  | cons c rest ih =>
    cases rest with
    | nil => rfl
    | cons d r =>
      simp only [noDoubleUnderscore, Bool.and_eq_true, Bool.not_eq_true',
        Bool.and_eq_false_iff] at h
      have hcd : ¬(c = '_' ∧ d = '_') := by
        rcases h.1 with h1 | h1 <;> simp only [beq_eq_false_iff_ne, ne_eq] at h1
        · exact fun hp => h1 hp.1
        · exact fun hp => h1 hp.2
      rw [collapseUnderscores, if_neg hcd]
      congr 1
      exact ih h.2

/-- Trimming the front fixes a list whose head is not an underscore. -/
theorem dropLeadingUnderscore_fixed (l : List Char)
    (h : headNotUnderscore l = true) :
    dropLeadingUnderscore l = l := by
  cases l with
  | nil => rfl
  | cons c rest =>
    simp only [headNotUnderscore, Bool.not_eq_true', beq_eq_false_iff_ne,
      ne_eq] at h
    rw [dropLeadingUnderscore, if_neg h]

/-- Trimming the back fixes a list whose last character is not an
underscore. -/
theorem dropTrailingUnderscore_fixed (l : List Char)
    (h : lastNotUnderscore l = true) :
    dropTrailingUnderscore l = l := by
  induction l with
  | nil => rfl
  | cons c rest ih =>
    cases rest with
    | nil =>
      simp only [lastNotUnderscore, Bool.not_eq_true', beq_eq_false_iff_ne,
        ne_eq] at h
      rw [dropTrailingUnderscore, if_neg h]
    | cons d r =>
      show c :: dropTrailingUnderscore (d :: r) = c :: d :: r
      congr 1
      exact ih h

/-- Shared cleanness result: every output of `sanitizeBiomeName`
consists of class characters only, has no consecutive underscores, and
neither starts nor ends with an underscore. -/
theorem sanitizeBiomeName_clean (s : List Char) :
    (sanitizeBiomeName s).all isNameChar = true ∧
    noDoubleUnderscore (sanitizeBiomeName s) = true ∧
    headNotUnderscore (sanitizeBiomeName s) = true ∧
    lastNotUnderscore (sanitizeBiomeName s) = true := by
  unfold sanitizeBiomeName
  set r1 := (s.map jsToLower).map sanitizeChar with hr1
  have h1 : r1.all isNameChar = true := all_isNameChar_map_sanitizeChar _
  set r2 := collapseUnderscores r1 with hr2
  have h2a : r2.all isNameChar = true := all_collapseUnderscores r1 h1
  have h2b : noDoubleUnderscore r2 = true := noDouble_collapseUnderscores r1
  set r3 := dropLeadingUnderscore r2 with hr3
  have h3a : r3.all isNameChar = true := all_dropLeadingUnderscore r2 h2a
  have h3b : noDoubleUnderscore r3 = true := noDouble_dropLeadingUnderscore r2 h2b
  have h3c : headNotUnderscore r3 = true := headNot_dropLeadingUnderscore r2 h2b
  exact ⟨all_dropTrailingUnderscore r3 h3a,
    noDouble_dropTrailingUnderscore r3 h3b,
    headNot_dropTrailingUnderscore r3 h3c,
    lastNot_dropTrailingUnderscore r3 h3b⟩

/-- C7: `sanitizeBiomeName` returns either the empty string or a string
of `[a-z0-9_]` characters (so a match of the anchored regex
`[a-z0-9_]+`) with no leading underscore, no trailing underscore, and no
two consecutive underscores. -/
theorem sanitizeBiomeName_shape (s : List Char) :
    sanitizeBiomeName s = [] ∨
    (sanitizeBiomeName s ≠ [] ∧
      (sanitizeBiomeName s).all isNameChar = true ∧
      noDoubleUnderscore (sanitizeBiomeName s) = true ∧
      headNotUnderscore (sanitizeBiomeName s) = true ∧
      lastNotUnderscore (sanitizeBiomeName s) = true) := by
  by_cases h : sanitizeBiomeName s = []
  · exact Or.inl h
  · exact Or.inr ⟨h, sanitizeBiomeName_clean s⟩

/-- Clean lists are fixed points of the sanitizer. -/
theorem sanitizeBiomeName_fixed (l : List Char)
    (h1 : l.all isNameChar = true) (h2 : noDoubleUnderscore l = true)
    (h3 : headNotUnderscore l = true) (h4 : lastNotUnderscore l = true) :
    sanitizeBiomeName l = l := by
  unfold sanitizeBiomeName
  rw [map_lower_sanitize_fixed l h1, collapseUnderscores_fixed l h2,
    dropLeadingUnderscore_fixed l h3, dropTrailingUnderscore_fixed l h4]

/-- C9: `sanitizeBiomeName` is idempotent. -/
theorem sanitizeBiomeName_idempotent (s : List Char) :
    sanitizeBiomeName (sanitizeBiomeName s) = sanitizeBiomeName s := by
  obtain ⟨h1, h2, h3, h4⟩ := sanitizeBiomeName_clean s
  exact sanitizeBiomeName_fixed (sanitizeBiomeName s) h1 h2 h3 h4

/-- Inversion of a required numeric-range field check. -/
theorem req_vNumInRange_inv {lo hi : ℚ} {o : Option Json}
    (h : req (vNumInRange lo hi) o = true) :
    ∃ q : ℚ, o = some (.num q) ∧ lo ≤ q ∧ q ≤ hi := by
  cases o with
  | none => simp [req] at h
  | some v =>
    cases v with
    | num q =>
      simp only [req, vNumInRange, Bool.and_eq_true, decide_eq_true_eq] at h
      exact ⟨q, rfl, h.1, h.2⟩
    | null => simp [req, vNumInRange] at h
    | bool b => simp [req, vNumInRange] at h
    | str s => simp [req, vNumInRange] at h
    | arr xs => simp [req, vNumInRange] at h
    | obj fs => simp [req, vNumInRange] at h

/-- Inversion of the required features field check of
`BiomeConfigSchema`. -/
theorem req_featuresFieldOk_inv {o : Option Json}
    (h : req featuresFieldOk o = true) :
    ∃ xs : List Json, o = some (.arr xs) ∧ xs.length = 11 := by
  cases o with
  | none => simp [req] at h
  | some v =>
    cases v with
    | arr xs =>
      simp only [req, featuresFieldOk, Bool.and_eq_true, beq_iff_eq] at h
      exact ⟨xs, rfl, h.2⟩
    | null => simp [req, featuresFieldOk] at h
    | bool b => simp [req, featuresFieldOk] at h
    | num q => simp [req, featuresFieldOk] at h
    | str s => simp [req, featuresFieldOk] at h
    | obj fs => simp [req, featuresFieldOk] at h

/-- Characterization of `validateTemperature` succeeding: the input is
a number between -2 and 2 inclusive. -/
theorem validateTemperature_eq_nil_iff (v : Json) :
    validateTemperature v = [] ↔
    ∃ q : ℚ, v = .num q ∧ -2 ≤ q ∧ q ≤ 2 := by
  cases v with
  | num q =>
    by_cases hq : q < -2 ∨ 2 < q
    · rw [validateTemperature, if_pos hq]
      constructor
      · intro h
        cases h
      · rintro ⟨q', hq', h1, h2⟩
        cases hq'
        rcases hq with h | h <;> linarith
    · rw [validateTemperature, if_neg hq]
      push_neg at hq
      exact ⟨fun _ => ⟨q, rfl, hq.1, hq.2⟩, fun _ => rfl⟩
  | null => simp [validateTemperature]
  | bool b => simp [validateTemperature]
  | str s => simp [validateTemperature]
  | arr xs => simp [validateTemperature]
  | obj fs => simp [validateTemperature]

/-- C2 (amended): `BiomeConfigSchema` of biomeSchema.ts and
`validateTemperature` of templates.ts both pin the climate fields to the
fixed inclusive ranges — temperature in [-2, 2] and downfall in [0, 1] —
while the geminiClient `BiomeSchema` path imposes no range at all (see
the counterexample theorem). -/
theorem biomeConfig_climate_ranges :
    (∀ j : Json, biomeConfigOk j = true →
      ∃ t d : ℚ, getField j "temperature" = some (.num t) ∧
        -2 ≤ t ∧ t ≤ 2 ∧
        getField j "downfall" = some (.num d) ∧ 0 ≤ d ∧ d ≤ 1) ∧
    (∀ v : Json, validateTemperature v = [] ↔
      ∃ q : ℚ, v = .num q ∧ -2 ≤ q ∧ q ≤ 2) := by
  constructor
  · intro j h
    simp only [biomeConfigOk, Bool.and_eq_true] at h
    obtain ⟨t, ht, ht1, ht2⟩ := req_vNumInRange_inv h.1.1.1.1.1.1.1.1.2
    obtain ⟨d, hd, hd1, hd2⟩ := req_vNumInRange_inv h.1.1.1.1.1.1.1.2
    exact ⟨t, d, ht, ht1, ht2, hd, hd1, hd2⟩
  · exact validateTemperature_eq_nil_iff

/-- Witness for C2 at the concrete accepted document. -/
theorem biomeConfig_climate_ranges_witness :
    ∃ t d : ℚ, getField badSpawnDoc "temperature" = some (.num t) ∧
      -2 ≤ t ∧ t ≤ 2 ∧
      getField badSpawnDoc "downfall" = some (.num d) ∧ 0 ≤ d ∧ d ≤ 1 :=
  biomeConfig_climate_ranges.1 badSpawnDoc (by decide)

/-- Counterexample for C2: the geminiClient `BiomeSchema` accepts a
document with temperature 100 and downfall 5, so the fixed climate
ranges are not enforced by every validation path. -/
theorem geminiBiomeSchema_accepts_out_of_range_climate :
    geminiBiomeOk outOfRangeDoc = true ∧
    getField outOfRangeDoc "temperature" = some (.num 100) ∧
    getField outOfRangeDoc "downfall" = some (.num 5) :=
  ⟨by decide, rfl, rfl⟩

/-- The length component of `validateFeatures` succeeding. -/
theorem validateFeatures_eq_nil_length (xs : List Json)
    (h : validateFeatures (.arr xs) = []) : xs.length = 10 := by
  rw [validateFeatures, List.append_eq_nil] at h
  by_cases hl : xs.length = 10
  · exact hl
  · rw [if_neg hl] at h
    cases h.1

/-- C3 (amended): `BiomeConfigSchema` accepts only feature sequences of
exactly 11 stages, while `validateFeatures` of templates.ts accepts only
exactly 10 stages; the two validation paths use different constants (and
the geminiClient path checks no length at all, see the counterexample). -/
theorem features_length_eleven_vs_ten :
    (∀ j : Json, biomeConfigOk j = true →
      ∃ xs : List Json, getField j "features" = some (.arr xs) ∧
        xs.length = 11) ∧
    (∀ xs : List Json, validateFeatures (.arr xs) = [] → xs.length = 10) := by
  constructor
  · intro j h
    simp only [biomeConfigOk, Bool.and_eq_true] at h
    exact req_featuresFieldOk_inv h.1.1.2
  · exact validateFeatures_eq_nil_length

/-- Witness for C3 at the concrete accepted document. -/
theorem features_length_eleven_vs_ten_witness :
    ∃ xs : List Json, getField badSpawnDoc "features" = some (.arr xs) ∧
      xs.length = 11 :=
  features_length_eleven_vs_ten.1 badSpawnDoc (by decide)

/-- Counterexample for C3: the same 11-stage features array accepted
inside a document by `BiomeConfigSchema` is rejected by
`validateFeatures`, and the geminiClient path accepts a document with an
empty features array: the required length is not one constant across
the validation paths. -/
theorem feature_length_constants_differ :
    biomeConfigOk badSpawnDoc = true ∧
    getField badSpawnDoc "features" =
      some (.arr (List.replicate 11 (.arr []))) ∧
    validateFeatures (.arr (List.replicate 11 (.arr []))) ≠ [] ∧
    geminiBiomeOk outOfRangeDoc = true ∧
    getField outOfRangeDoc "features" = some (.arr []) :=
  ⟨by decide, rfl, by decide, by decide, rfl⟩

/-- A required-field check passes only when the field is present. -/
theorem missingField_inv {o : Option Json} {msg : String}
    (h : missingField o msg = []) : ∃ v, o = some v := by
  cases o with
  | none => cases h
  | some v => exact ⟨v, rfl⟩

/-- Inversion of the weight check of `validateSpawnEntry`: a present
weight passing with no errors is an integer-valued number in 1..1000. -/
theorem spawnWeightCheck_inv {v : Json}
    (h : spawnWeightCheck (some v) = []) :
    ∃ w : ℚ, v = .num w ∧ 1 ≤ w ∧ w ≤ 1000 := by
  cases v with
  | num q =>
    by_cases hi : isIntQ q = true
    · rw [spawnWeightCheck, if_pos hi] at h
      by_cases hr : q < 1 ∨ 1000 < q
      · rw [if_pos hr] at h
        cases h
      · push_neg at hr
        exact ⟨q, rfl, hr.1, hr.2⟩
    · rw [spawnWeightCheck, if_neg hi] at h
      cases h
  | null => cases h
  | bool b => cases h
  | str s => cases h
  | arr xs => cases h
  | obj fs => cases h

/-- Inversion of the count checks of `validateSpawnEntry`: a present
count passing with no errors is an integer-valued number in 1..10. -/
theorem spawnCountCheck_inv {v : Json} {m1 m2 : String}
    (h : spawnCountCheck (some v) m1 m2 = []) :
    ∃ q : ℚ, v = .num q ∧ 1 ≤ q ∧ q ≤ 10 := by
  cases v with
  | num q =>
    by_cases hi : isIntQ q = true
    · rw [spawnCountCheck, if_pos hi] at h
      by_cases hr : q < 1 ∨ 10 < q
      · rw [if_pos hr] at h
        cases h
      · push_neg at hr
        exact ⟨q, rfl, hr.1, hr.2⟩
    · rw [spawnCountCheck, if_neg hi] at h
      cases h
  | null => cases h
  | bool b => cases h
  | str s => cases h
  | arr xs => cases h
  | obj fs => cases h

/-- Inversion of the cross check of `validateSpawnEntry`. -/
theorem spawnCrossCheck_inv {mn mx : ℚ}
    (h : spawnCrossCheck (some (.num mn)) (some (.num mx)) = []) :
    mn ≤ mx := by
  by_cases hlt : mx < mn
  · rw [spawnCrossCheck, if_pos hlt] at h
    cases h
  · exact le_of_not_lt hlt

/-- C1 (amended): the spawn-entry validator of templates.ts accepts a
spawn tuple only when its weight is a positive integer (at least 1) and
its minCount does not exceed its maxCount; `MobSpawnSchema` of
biomeSchema.ts enforces neither — it accepts weight 0 and
minCount > maxCount (see the counterexample theorem). -/
theorem validateSpawnEntry_enforces_bounds (e : Json)
    (h : validateSpawnEntry e = []) :
    ∃ w mn mx : ℚ,
      getField e "weight" = some (.num w) ∧
      getField e "minCount" = some (.num mn) ∧
      getField e "maxCount" = some (.num mx) ∧
      1 ≤ w ∧ mn ≤ mx := by
  have hch : spawnEntryChecks e = [] := by
    cases e with
    | obj fs => exact h
    | arr xs => exact h
    | null => exact absurd h (by simp [validateSpawnEntry])
    | bool b => exact absurd h (by simp [validateSpawnEntry])
    | num q => exact absurd h (by simp [validateSpawnEntry])
    | str s => exact absurd h (by simp [validateSpawnEntry])
  simp only [spawnEntryChecks, List.append_eq_nil] at hch
  obtain ⟨vw, hvw⟩ := missingField_inv hch.1.1.1.1.1.1.1.2
  obtain ⟨vmn, hvmn⟩ := missingField_inv hch.1.1.1.1.1.1.2
  obtain ⟨vmx, hvmx⟩ := missingField_inv hch.1.1.1.1.1.2
  have hw := hch.1.1.1.2
  rw [hvw] at hw
  obtain ⟨w, hweq, hw1, _⟩ := spawnWeightCheck_inv hw
  have hmn := hch.1.1.2
  rw [hvmn] at hmn
  obtain ⟨mn, hmneq, _, _⟩ := spawnCountCheck_inv hmn
  have hmx := hch.1.2
  rw [hvmx] at hmx
  obtain ⟨mx, hmxeq, _, _⟩ := spawnCountCheck_inv hmx
  have hcross := hch.2
  rw [hvmn, hvmx, hmneq, hmxeq] at hcross
  exact ⟨w, mn, mx, by rw [hvw, hweq], by rw [hvmn, hmneq],
    by rw [hvmx, hmxeq], hw1, spawnCrossCheck_inv hcross⟩

/-- Witness for C1 at a concrete accepted spawn entry. -/
theorem validateSpawnEntry_enforces_bounds_witness :
    ∃ w mn mx : ℚ,
      getField goodSpawnEntry "weight" = some (.num w) ∧
      getField goodSpawnEntry "minCount" = some (.num mn) ∧
      getField goodSpawnEntry "maxCount" = some (.num mx) ∧
      1 ≤ w ∧ mn ≤ mx :=
  validateSpawnEntry_enforces_bounds goodSpawnEntry (by decide)

/-- Counterexample for C1: `MobSpawnSchema` accepts a spawn tuple with
weight 0 and minCount 2 > maxCount 1, and a full document containing it
passes `BiomeConfigSchema` validation. -/
theorem mobSpawnSchema_accepts_zero_weight_min_gt_max :
    mobSpawnOk badSpawnEntry = true ∧
    getField badSpawnEntry "weight" = some (.num 0) ∧
    getField badSpawnEntry "minCount" = some (.num 2) ∧
    getField badSpawnEntry "maxCount" = some (.num 1) ∧
    (validateBiomeConfig badSpawnDoc).success = true :=
  ⟨by decide, rfl, rfl, rfl, by decide⟩

/-- Characterization of an optional hex color field: accepted exactly
when absent or a string matching the #RRGGBB regex. -/
theorem opt_vHex_iff (o : Option Json) :
    opt vHex o = true ↔
    o = none ∨ ∃ s, o = some (.str s) ∧ matchesHexColorRegex s = true := by
  cases o with
  | none => simp [opt]
  | some v =>
    cases v with
    | str s => simp [opt, vHex]
    | null => simp [opt, vHex]
    | bool b => simp [opt, vHex]
    | num q => simp [opt, vHex]
    | arr xs => simp [opt, vHex]
    | obj fs => simp [opt, vHex]

/-- C6 (amended): in the `EffectsSchema` path of biomeSchema.ts every
present color field is accepted exactly when it is a string matching
the anchored regex #RRGGBB; the other two validation paths
(`BiomeEffectsSchema` of the geminiClient section and `validateEffects`
of templates.ts) instead require packed integers, so the hex format
check is not shared by every path (see the counterexample theorem). -/
theorem effectsSchema_hex_color_iff :
    (∀ j : Json, effectsOk j = true →
      opt vHex (getField j "water_color") = true ∧
      opt vHex (getField j "water_fog_color") = true ∧
      opt vHex (getField j "fog_color") = true ∧
      opt vHex (getField j "sky_color") = true ∧
      opt vHex (getField j "foliage_color") = true ∧
      opt vHex (getField j "grass_color") = true ∧
      opt vHex (getField j "dry_foliage_color") = true) ∧
    (∀ o : Option Json, opt vHex o = true ↔
      o = none ∨ ∃ s, o = some (.str s) ∧ matchesHexColorRegex s = true) := by
  constructor
  · intro j h
    simp only [effectsOk, Bool.and_eq_true] at h
    exact ⟨h.1.1.1.1.1.1.1.1.1.1.2, h.1.1.1.1.1.1.1.1.1.2,
      h.1.1.1.1.1.1.1.1.2, h.1.1.1.1.1.1.1.2, h.1.1.1.1.1.1.2,
      h.1.1.1.1.1.2, h.1.1.1.2⟩
  · exact opt_vHex_iff

/-- Witness for C6 at a concrete hex-colored effects object. -/
theorem effectsSchema_hex_color_iff_witness :
    opt vHex (getField hexEffects "sky_color") = true ∧
    (opt vHex (some (Json.str "#3f76e4")) = true ↔
      (some (Json.str "#3f76e4") : Option Json) = none ∨
      ∃ s, (some (Json.str "#3f76e4") : Option Json) = some (.str s) ∧
        matchesHexColorRegex s = true) :=
  ⟨(effectsSchema_hex_color_iff.1 hexEffects (by decide)).2.2.2.1,
    effectsSchema_hex_color_iff.2 (some (Json.str "#3f76e4"))⟩

/-- Counterexample for C6: a hex-string effects object passes the
biomeSchema.ts path but fails the two packed-integer paths, and a
packed-integer effects object passes those paths but fails the
biomeSchema.ts path — the color format check differs across validation
paths. -/
theorem color_checks_differ_across_paths :
    effectsOk hexEffects = true ∧
    validateEffects hexEffects ≠ [] ∧
    geminiEffectsOk hexEffects = false ∧
    geminiEffectsOk intEffects = true ∧
    validateEffects intEffects = [] ∧
    effectsOk intEffects = false := by
  refine ⟨by decide, by decide, by decide, by decide, by decide, by decide⟩

/-- Emptiness of a single issue contribution. -/
theorem issueIf_eq_nil {b : Bool} {m : String} :
    issueIf b m = [] ↔ b = true := by
  cases b <;> simp [issueIf]

/-- The modelled Zod issue list of `BiomeConfigSchema.safeParse` is
empty exactly when the schema accepts the document. -/
theorem biomeConfigIssues_eq_nil (j : Json) :
    biomeConfigIssues j = [] ↔ biomeConfigOk j = true := by
  cases j with
  | obj fs =>
    simp only [biomeConfigIssues, biomeConfigOk, List.append_eq_nil,
      issueIf_eq_nil, Bool.and_eq_true, isObj]
    tauto
  | null => simp [biomeConfigIssues, biomeConfigOk, isObj]
  | bool b => simp [biomeConfigIssues, biomeConfigOk, isObj]
  | num q => simp [biomeConfigIssues, biomeConfigOk, isObj]
  | str s => simp [biomeConfigIssues, biomeConfigOk, isObj]
  | arr xs => simp [biomeConfigIssues, biomeConfigOk, isObj]

/-- C10: `validateBiomeConfig` and `parseAIBiomeResponse` are total at
the public interface (they are functions into plain result records, the
try/catch of the source having been absorbed into the `Except` model of
the external `JSON.parse`): the result has success true with the parsed
document exactly when the input passes `BiomeConfigSchema`, and
otherwise success false with a non-empty error description; for the
parse step the thrown message of the JavaScript engine is assumed
non-empty. -/
theorem parse_validate_total_spec :
    (∀ j : Json,
      ((validateBiomeConfig j).success = true ↔ biomeConfigOk j = true) ∧
      ((validateBiomeConfig j).success = true →
        (validateBiomeConfig j).data = some j) ∧
      ((validateBiomeConfig j).success = false →
        ∃ es, (validateBiomeConfig j).errors = some es ∧ es ≠ [])) ∧
    (∀ res : Except String Json, (∀ m, res = .error m → m ≠ "") →
      (((parseAIBiomeResponse res).success = true ↔
          ∃ j, res = .ok j ∧ biomeConfigOk j = true) ∧
        ((parseAIBiomeResponse res).success = true →
          ∃ j, res = .ok j ∧ (parseAIBiomeResponse res).biome = some j) ∧
        ((parseAIBiomeResponse res).success = false →
          ∃ s, (parseAIBiomeResponse res).error = some s ∧ s ≠ ""))) := by
  have hval : ∀ j : Json,
      ((validateBiomeConfig j).success = true ↔ biomeConfigOk j = true) ∧
      ((validateBiomeConfig j).success = true →
        (validateBiomeConfig j).data = some j) ∧
      ((validateBiomeConfig j).success = false →
        ∃ es, (validateBiomeConfig j).errors = some es ∧ es ≠ []) := by
    intro j
    cases hiss : biomeConfigIssues j with
    | nil =>
      have hok : biomeConfigOk j = true := (biomeConfigIssues_eq_nil j).mp hiss
      refine ⟨?_, ?_, ?_⟩
      · simp [validateBiomeConfig, hiss, hok]
      · intro _
        simp [validateBiomeConfig, hiss]
      · intro hfalse
        simp [validateBiomeConfig, hiss] at hfalse
    | cons e es =>
      have hok : ¬biomeConfigOk j = true := by
        intro hb
        have hnil := (biomeConfigIssues_eq_nil j).mpr hb
        rw [hiss] at hnil
        cases hnil
      refine ⟨?_, ?_, ?_⟩
      · constructor
        · intro hfalse
          simp [validateBiomeConfig, hiss] at hfalse
        · intro hb
          exact absurd hb hok
      · intro hfalse
        simp [validateBiomeConfig, hiss] at hfalse
      · intro _
        exact ⟨e :: es, by simp [validateBiomeConfig, hiss], by simp⟩
  refine ⟨hval, ?_⟩
  intro res hm
  cases res with
  | error m =>
    refine ⟨?_, ?_, ?_⟩
    · simp [parseAIBiomeResponse]
    · intro h
      simp [parseAIBiomeResponse] at h
    · intro _
      exact ⟨m, by simp [parseAIBiomeResponse], hm m rfl⟩
  | ok j =>
    cases hiss : biomeConfigIssues j with
    | nil =>
      have hv : validateBiomeConfig j =
          { success := true, data := some j, errors := none } := by
        simp [validateBiomeConfig, hiss]
      have hok : biomeConfigOk j = true := (biomeConfigIssues_eq_nil j).mp hiss
      refine ⟨?_, ?_, ?_⟩
      · simp only [parseAIBiomeResponse, hv]
        constructor
        · intro _
          exact ⟨j, rfl, hok⟩
        · intro _
          rfl
      · intro _
        exact ⟨j, rfl, by simp [parseAIBiomeResponse, hv]⟩
      · intro hfalse
        simp [parseAIBiomeResponse, hv] at hfalse
    | cons e es =>
      have hv : validateBiomeConfig j =
          { success := false, data := none, errors := some (e :: es) } := by
        simp [validateBiomeConfig, hiss]
      have hok : ¬biomeConfigOk j = true := by
        intro hb
        have hnil := (biomeConfigIssues_eq_nil j).mpr hb
        rw [hiss] at hnil
        cases hnil
      refine ⟨?_, ?_, ?_⟩
      · constructor
        · intro hfalse
          simp [parseAIBiomeResponse, hv] at hfalse
        · rintro ⟨j', hj', hok'⟩
          injection hj' with hjj
          subst hjj
          exact absurd hok' hok
      · intro hfalse
        simp [parseAIBiomeResponse, hv] at hfalse
      · intro _
        by_cases hj : String.intercalate "; " (e :: es) = ""
        · refine ⟨ "Invalid biome configuration", ?_, by decide⟩
          simp [parseAIBiomeResponse, hv, hj]
        · refine ⟨String.intercalate "; " (e :: es), ?_, hj⟩
          simp [parseAIBiomeResponse, hv, hj]

/-- Witness for C10: the concrete accepted document parses and
validates with success. -/
theorem parse_validate_total_spec_witness :
    (parseAIBiomeResponse (.ok badSpawnDoc)).success = true :=
  ((parse_validate_total_spec.2 (.ok badSpawnDoc)
      (fun _ h => Except.noConfusion h)).1).mpr
    ⟨badSpawnDoc, rfl, by decide⟩
